import Mathlib

/-!
Verification of the personal expense tracker module: a shallow embedding of
the `Expense` dataclass and the `ExpenseTracker` class (add, remove,
date-range query, monthly summary, JSON persistence), together with proofs
of the documented properties.

Modelling conventions:
* Python `float` amounts are modelled as exact rationals `ℚ`.
* `datetime.date` is modelled by `PyDate` (year/month/day together with the
  Gregorian validity predicate `PyDate.validB` that `datetime.date`
  enforces at construction; theorems that need in-range dates take it as a
  hypothesis).
* The ambient state used by `Expense.__post_init__` (the current timestamp
  and Python's string `hash`) is passed explicitly as parameters
  `ts` / `hashFn`.
* Python exceptions are values of `PyError`; fallible operations return
  `Except PyError _`.
* The backing JSON file is modelled by `FileData`: absent, malformed
  (unparseable JSON), or a parsed array of per-record dictionaries.
-/

/-- Embedding of `datetime.date`: a plain year/month/day triple.
`datetime.date` guarantees the bounds of `PyDate.validB`; here they are
carried as hypotheses where needed. -/
structure PyDate where
  year : Nat
  month : Nat
  day : Nat
deriving DecidableEq

/-- Gregorian leap-year rule, as used by `datetime`. -/
def isLeapYear (y : Nat) : Bool :=
  (y % 4 == 0 && y % 100 != 0) || y % 400 == 0

/-- Number of days in a month of a given year (Gregorian calendar). -/
def daysInMonth (y m : Nat) : Nat :=
  if m = 2 then (if isLeapYear y then 29 else 28)
  else if m = 4 ∨ m = 6 ∨ m = 9 ∨ m = 11 then 30
  else 31

/-- The validity invariant `datetime.date` enforces: year in `1..9999`,
month in `1..12`, day in range for the month. -/
def PyDate.validB (d : PyDate) : Bool :=
  1 ≤ d.year && d.year ≤ 9999 && 1 ≤ d.month && d.month ≤ 12 &&
    1 ≤ d.day && d.day ≤ daysInMonth d.year d.month

/-- Python's total order on `datetime.date`: lexicographic on
(year, month, day).  `a.le b` embeds `a <= b`. -/
def PyDate.le (a b : PyDate) : Bool :=
  a.year < b.year ||
    (a.year == b.year &&
      (a.month < b.month || (a.month == b.month && a.day ≤ b.day)))

/-- The decimal digit character for `n < 10` (`chr(48 + n)`). -/
def decDigit (n : Nat) : Char :=
  Char.ofNat (48 + n)

/-- Zero-padded two-digit rendering, as `%02d` produces for `n ≤ 99`
(months and days of a valid date are always in that range). -/
def pad2 (n : Nat) : List Char :=
  [decDigit (n / 10 % 10), decDigit (n % 10)]

/-- Zero-padded four-digit rendering, as `%04d` produces for `n ≤ 9999`
(years of a valid `datetime.date` are always in that range). -/
def pad4 (n : Nat) : List Char :=
  [decDigit (n / 1000 % 10), decDigit (n / 100 % 10),
    decDigit (n / 10 % 10), decDigit (n % 10)]

/-- Embedding of `date.isoformat()`: the `YYYY-MM-DD` rendering. -/
def isoformat (d : PyDate) : String :=
  ⟨pad4 d.year ++ '-' :: (pad2 d.month ++ '-' :: pad2 d.day)⟩

/-- Numeric value of a decimal digit character, `none` on non-digits. -/
def digitVal (c : Char) : Option Nat :=
  if 48 ≤ c.toNat ∧ c.toNat ≤ 57 then some (c.toNat - 48) else none

/-- Second stage of `date.fromisoformat`: given the ten characters of a
candidate `YYYY-MM-DD` string, check the digits, the separators and the
calendar validity of the resulting date. -/
def parseYMD (c1 c2 c3 c4 s1 c5 c6 s2 c7 c8 : Char) : Option PyDate :=
  match digitVal c1, digitVal c2, digitVal c3, digitVal c4,
      digitVal c5, digitVal c6, digitVal c7, digitVal c8 with
  | some y1, some y2, some y3, some y4, some m1, some m2, some d1, some d2 =>
    if s1 = '-' ∧ s2 = '-' then
      let dt : PyDate :=
        ⟨((y1 * 10 + y2) * 10 + y3) * 10 + y4, m1 * 10 + m2, d1 * 10 + d2⟩
      if dt.validB then some dt else none
    else none
  | _, _, _, _, _, _, _, _ => none

/-- Embedding of `datetime.date.fromisoformat`: accepts exactly a valid
`YYYY-MM-DD` calendar-date string, `none` (a `ValueError` in Python) on
anything else. -/
def parseIsoDate (s : String) : Option PyDate :=
  match s.data with
  | [c1, c2, c3, c4, s1, c5, c6, s2, c7, c8] =>
    parseYMD c1 c2 c3 c4 s1 c5 c6 s2 c7 c8
  | _ => none

lemma digitVal_decDigit (n : Nat) (h : n < 10) :
    digitVal (decDigit n) = some n := by
  interval_cases n <;> decide

lemma digitVal_decDigit_mod (n : Nat) :
    digitVal (decDigit (n % 10)) = some (n % 10) :=
  digitVal_decDigit _ (Nat.mod_lt _ (by decide))

/-- `fromisoformat` inverts `isoformat` on every valid date. -/
lemma parseIsoDate_isoformat (d : PyDate) (h : d.validB = true) :
    parseIsoDate (isoformat d) = some d := by
  have hb : 1 ≤ d.year ∧ d.year ≤ 9999 ∧ 1 ≤ d.month ∧ d.month ≤ 12 ∧
      1 ≤ d.day ∧ d.day ≤ daysInMonth d.year d.month := by
    simpa [PyDate.validB, and_assoc] using h
  obtain ⟨h1, h2, h3, h4, h5, h6⟩ := hb
  have h7 : d.day ≤ 31 := by
    have h31 : daysInMonth d.year d.month ≤ 31 := by
      unfold daysInMonth
      split
      · split <;> omega
      · split <;> omega
    omega
  have e1 : d.year / 100 / 10 = d.year / 1000 := by
    rw [Nat.div_div_eq_div_mul]
  have e2 : d.year / 10 / 10 = d.year / 100 := by
    rw [Nat.div_div_eq_div_mul]
  have e3 : d.year / 1000 / 10 = d.year / 10000 := by
    rw [Nat.div_div_eq_div_mul]
  have hy : ((d.year / 1000 % 10 * 10 + d.year / 100 % 10) * 10 +
      d.year / 10 % 10) * 10 + d.year % 10 = d.year := by omega
  have hm : d.month / 10 % 10 * 10 + d.month % 10 = d.month := by omega
  have hd : d.day / 10 % 10 * 10 + d.day % 10 = d.day := by omega
  have hdt : (⟨((d.year / 1000 % 10 * 10 + d.year / 100 % 10) * 10 +
      d.year / 10 % 10) * 10 + d.year % 10,
      d.month / 10 % 10 * 10 + d.month % 10,
      d.day / 10 % 10 * 10 + d.day % 10⟩ : PyDate) = d := by
    rw [hy, hm, hd]
  simp only [parseIsoDate, isoformat, pad4, pad2, List.cons_append,
    List.nil_append]
  simp only [parseYMD, digitVal_decDigit_mod]
  simp only [hdt, h, if_true]
  simp

/-- Embedding of the Python exception classes that the module can raise:
`ValueError` (the spec's ValidationError), `KeyError` (missing dictionary
key), `TypeError` (missing dataclass constructor argument). -/
inductive PyError where
  | valueError
  | keyError
  | typeError
deriving DecidableEq

/-- Embedding of the `Expense` dataclass after `__post_init__` has run:
`id` is always a string (either caller-supplied or generated). -/
structure Expense where
  amount : ℚ
  category : String
  description : String
  date : PyDate
  id : String
deriving DecidableEq

/-- The id generated by `__post_init__` when none is supplied:
`f"{timestamp}_{hash(description) % 10000}"`.  The ambient timestamp and
Python's `hash` are passed explicitly; `Int` `%` matches Python's
nonnegative remainder. -/
def genId (ts : Nat) (hashFn : String → Int) (desc : String) : String :=
  toString ts ++ "_" ++ toString (hashFn desc % 10000)

/-- Embedding of `Expense(...)` construction followed by `__post_init__`:
no field is validated; a missing `id` is replaced by a generated one. -/
def Expense.make (amount : ℚ) (category desc : String) (date : PyDate)
    (id? : Option String) (ts : Nat) (hashFn : String → Int) : Expense :=
  ⟨amount, category, desc, date, id?.getD (genId ts hashFn desc)⟩

/-- A Python dictionary holding (possibly missing) `Expense` fields, as
consumed by `from_dict` and produced by `to_dict`.  `none` marks an absent
key (for `id`, absent-or-`None`, which lead to the same construction). -/
structure ExpenseDict where
  amount : Option ℚ
  category : Option String
  description : Option String
  date : Option String
  id : Option String
deriving DecidableEq

/-- Embedding of `Expense.to_dict`: `asdict` plus the ISO rendering of the
date; every key is present. -/
def Expense.to_dict (e : Expense) : ExpenseDict :=
  ⟨some e.amount, some e.category, some e.description,
    some (isoformat e.date), some e.id⟩

/-- Embedding of `Expense.from_dict`.  Evaluation order follows the
source: `data['date']` first (`KeyError` if absent), then
`date.fromisoformat` (`ValueError` on an invalid string), then the
dataclass call (`TypeError` if `amount`, `category` or `description` is
missing).  `amount` and `description` are not re-validated. -/
def Expense.from_dict (ts : Nat) (hashFn : String → Int)
    (d : ExpenseDict) : Except PyError Expense :=
  match d.date with
  | none => .error .keyError
  | some ds =>
    match parseIsoDate ds with
    | none => .error .valueError
    | some dt =>
      match d.amount, d.category, d.description with
      | some a, some c, some desc =>
        .ok (Expense.make a c desc dt d.id ts hashFn)
      | _, _, _ => .error .typeError

/-- Content of the backing file: absent, malformed JSON, or a JSON array
of per-record dictionaries. -/
inductive FileData where
  | absent
  | malformed
  | records (items : List ExpenseDict)
deriving DecidableEq

/-- The list comprehension `[Expense.from_dict(item) for item in data]`:
fail-fast on the first item whose deserialization raises. -/
def fromDictList (ts : Nat) (hashFn : String → Int) :
    List ExpenseDict → Except PyError (List Expense)
  | [] => .ok []
  | d :: rest =>
    match Expense.from_dict ts hashFn d with
    | .error err => .error err
    | .ok e =>
      match fromDictList ts hashFn rest with
      | .error err => .error err
      | .ok es => .ok (e :: es)

/-- State of an `ExpenseTracker` together with the content of its backing
file (the file is part of the state so that persistence is explicit). -/
structure ExpenseTracker where
  expenses : List Expense
  categories : List String
  file : FileData
deriving DecidableEq

/-- The initial advisory category set from `__init__`. -/
def defaultCategories : List String :=
  ["食物", "交通", "娛樂", "購物", "醫療", "教育", "房租", "水電", "其他"]

/-- `set.add`: insert a category if it is not already known. -/
def addCategory (cs : List String) (c : String) : List String :=
  if c ∈ cs then cs else cs ++ [c]

/-- Embedding of `_load_expenses`: an absent file yields the empty list; a
`json.JSONDecodeError` (malformed file) or any exception raised while
rebuilding the records yields the empty list. -/
def load_expenses (ts : Nat) (hashFn : String → Int) (f : FileData) :
    List Expense :=
  match f with
  | .absent => []
  | .malformed => []
  | .records items =>
    match fromDictList ts hashFn items with
    | .ok es => es
    | .error _ => []

/-- Embedding of `ExpenseTracker.__init__`: eagerly load the backing file,
start from the default category set.  Construction never fails. -/
def mkExpenseTracker (ts : Nat) (hashFn : String → Int) (f : FileData) :
    ExpenseTracker :=
  ⟨load_expenses ts hashFn f, defaultCategories, f⟩

/-- Embedding of `_save_expenses`: rewrite the whole backing file with the
serialized collection. -/
def save_expenses (t : ExpenseTracker) : ExpenseTracker :=
  ⟨t.expenses, t.categories, .records (t.expenses.map Expense.to_dict)⟩

/-- Embedding of Python's `str.strip()`: drop leading and trailing
whitespace characters. -/
def pyStrip (s : String) : String :=
  ⟨((s.data.dropWhile Char.isWhitespace).reverse.dropWhile
      Char.isWhitespace).reverse⟩

/-- Embedding of `add_expense`.  Validation happens before any mutation;
a `ValueError` is logged and re-raised with the state untouched.  On the
valid path the date defaults to `today`, the category is registered, the
record is built from the *trimmed* description, appended, and the
collection is persisted.  Returns the `True` of the source on success. -/
def add_expense (ts : Nat) (hashFn : String → Int) (today : PyDate)
    (t : ExpenseTracker) (amount : ℚ) (category desc : String)
    (date? : Option PyDate) : Except PyError Bool × ExpenseTracker :=
  if amount ≤ 0 then (.error .valueError, t)
  else if pyStrip desc = "" then (.error .valueError, t)
  else
    let expenseDate := date?.getD today
    let e := Expense.make amount category (pyStrip desc) expenseDate none ts hashFn
    let t' : ExpenseTracker :=
      ⟨t.expenses ++ [e], addCategory t.categories category, t.file⟩
    (.ok true, save_expenses t')

/-- Embedding of `remove_expense`: keep every record whose id differs (the
comprehension drops *all* matches), persist only when the length shrank,
return whether anything was removed. -/
def remove_expense (t : ExpenseTracker) (eid : String) :
    Bool × ExpenseTracker :=
  let keep := t.expenses.filter (fun e => e.id != eid)
  if keep.length < t.expenses.length then
    (true, save_expenses ⟨keep, t.categories, t.file⟩)
  else
    (false, ⟨keep, t.categories, t.file⟩)

/-- Embedding of `get_expenses_by_date_range`: the records whose date lies
in `[sd, ed]`, both bounds inclusive, in stored order. -/
def get_expenses_by_date_range (t : ExpenseTracker) (sd ed : PyDate) :
    List Expense :=
  t.expenses.filter (fun e => PyDate.le sd e.date && PyDate.le e.date ed)

/-- Python's bankers rounding of a rational to the nearest integer
(`round` with ties to the even integer). -/
def roundHalfEven (q : ℚ) : ℤ :=
  let f := ⌊q⌋
  if q - f < 1 / 2 then f
  else if 1 / 2 < q - f then f + 1
  else if f % 2 = 0 then f else f + 1

/-- `round(x, 2)`: bankers rounding at two decimal places. -/
def round2 (q : ℚ) : ℚ :=
  (roundHalfEven (q * 100) : ℚ) / 100

/-- The result dictionary of `calculate_monthly_summary`. -/
structure MonthlySummary where
  total_amount : ℚ
  expense_count : Nat
  average_amount : ℚ
  categories : List (String × ℚ)
deriving DecidableEq

/-- One step of the category-subtotal loop: add to an existing entry or
append a new one (an insertion-ordered Python dictionary). -/
def addToSummary (m : List (String × ℚ)) (c : String) (a : ℚ) :
    List (String × ℚ) :=
  if m.any (fun p => p.1 == c) then
    m.map (fun p => if p.1 == c then (p.1, p.2 + a) else p)
  else
    m ++ [(c, a)]

/-- Dictionary lookup on the insertion-ordered association list. -/
def lookupA (c : String) (m : List (String × ℚ)) : Option ℚ :=
  (m.find? (fun p => p.1 == c)).map (fun p => p.2)

/-- Embedding of `calculate_monthly_summary`. -/
def calculate_monthly_summary (t : ExpenseTracker) (year month : Nat) :
    MonthlySummary :=
  let monthly := t.expenses.filter
    (fun e => e.date.year == year && e.date.month == month)
  if monthly.isEmpty then
    ⟨0, 0, 0, []⟩
  else
    let total := (monthly.map (fun e => e.amount)).sum
    let cnt := monthly.length
    let avg := total / (cnt : ℚ)
    let cats := monthly.foldl (fun m e => addToSummary m e.category e.amount) []
    ⟨round2 total, cnt, round2 avg, cats⟩

/-- Serialize-then-deserialize restores a record exactly (the dictionary
produced by `to_dict` always carries every field, so only the date string
has to round-trip). -/
lemma from_dict_to_dict (ts : Nat) (hashFn : String → Int) (e : Expense)
    (h : e.date.validB = true) :
    Expense.from_dict ts hashFn (Expense.to_dict e) = .ok e := by
  simp only [Expense.from_dict, Expense.to_dict,
    parseIsoDate_isoformat e.date h]
  rfl

/-- C1: for every call to `add_expense` with `amount <= 0` or a
description that trims to empty, the call raises `ValueError` (the spec's
ValidationError) to the caller and the tracker state — in particular the
expense collection, its size and its contents — is exactly what it was
before the call. -/
theorem C1_add_invalid_raises_and_preserves (ts : Nat)
    (hashFn : String → Int) (today : PyDate) (t : ExpenseTracker)
    (amount : ℚ) (category desc : String) (date? : Option PyDate)
    (h : amount ≤ 0 ∨ pyStrip desc = "") :
    add_expense ts hashFn today t amount category desc date? =
      (.error .valueError, t) := by
  unfold add_expense
  rcases h with h | h
  · rw [if_pos h]
  · by_cases h0 : amount ≤ 0
    · rw [if_pos h0]
    · rw [if_neg h0, if_pos h]

/-- Witness for C1 at a concrete invalid call. -/
theorem C1_witness :
    ((-1 : ℚ) ≤ 0 ∨ (pyStrip "x" = "")) ∧
      add_expense 0 (fun _ => 0) ⟨2024, 1, 1⟩ ⟨[], [], .absent⟩ (-1) "食物"
          "x" none =
        (.error .valueError, ⟨[], [], .absent⟩) :=
  ⟨Or.inl (by norm_num),
    C1_add_invalid_raises_and_preserves 0 (fun _ => 0) ⟨2024, 1, 1⟩
      ⟨[], [], .absent⟩ (-1) "食物" "x" none (Or.inl (by norm_num))⟩

/-- C2 counterexample: constructing a record directly with `amount = -5`
and an empty description succeeds and stores the invalid values verbatim —
`__post_init__` only generates the id, it never raises. -/
theorem C2_counterexample :
    Expense.make (-5) "食物" "" ⟨2024, 1, 1⟩ (some "id1") 0 (fun _ => 0) =
        ⟨-5, "食物", "", ⟨2024, 1, 1⟩, "id1"⟩ ∧
      ((-5 : ℚ) ≤ 0 ∧ pyStrip "" = "") :=
  ⟨rfl, by norm_num, rfl⟩

/-- C2 (amended): direct construction of a Record never fails, even when
`amount <= 0` or the trimmed description is empty; every field is stored
exactly as supplied and only the id is filled in when missing.  The
amount/description invariants are enforced solely by the Store's
`add_expense`. -/
theorem C2_make_no_validation (amount : ℚ) (category desc : String)
    (dt : PyDate) (id? : Option String) (ts : Nat) (hashFn : String → Int)
    (_h : amount ≤ 0 ∨ pyStrip desc = "") :
    (Expense.make amount category desc dt id? ts hashFn).amount = amount ∧
      (Expense.make amount category desc dt id? ts hashFn).category =
        category ∧
      (Expense.make amount category desc dt id? ts hashFn).description =
        desc ∧
      (Expense.make amount category desc dt id? ts hashFn).date = dt ∧
      (Expense.make amount category desc dt id? ts hashFn).id =
        id?.getD (genId ts hashFn desc) :=
  ⟨rfl, rfl, rfl, rfl, rfl⟩

/-- Witness for C2 (amended) at a concrete invalid construction. -/
theorem C2_witness :
    ((-5 : ℚ) ≤ 0 ∨ pyStrip "x" = "") ∧
      (Expense.make (-5) "食物" "x" ⟨2024, 1, 1⟩ (some "id2") 0
          (fun _ => 0)).amount = -5 :=
  ⟨Or.inl (by norm_num),
    (C2_make_no_validation (-5) "食物" "x" ⟨2024, 1, 1⟩ (some "id2") 0
      (fun _ => 0) (Or.inl (by norm_num))).1⟩

/-- C3 counterexample: a valid call whose description carries surrounding
whitespace succeeds, but the stored description is the trimmed string, not
the description exactly as passed by the caller. -/
theorem C3_counterexample :
    ((add_expense 0 (fun _ => 0) ⟨2024, 1, 1⟩ ⟨[], [], .absent⟩ 1 "食物"
          " 午餐 " none).2.expenses.map (fun e => e.description)) =
        ["午餐"] ∧
      ("午餐" : String) ≠ " 午餐 " := by
  constructor
  · decide
  · decide

/-- C3 (amended): for every valid input (`amount > 0`, description
non-empty after trimming) `add_expense` succeeds and appends exactly one
new Record, whose `amount`, `category` and `date` are exactly the caller's
values and whose `description` is the caller's description trimmed; the
new Record occurs exactly once more than before in the collection (hence
exactly once when it was not already present). -/
theorem C3_add_valid_appends (ts : Nat) (hashFn : String → Int)
    (today : PyDate) (t : ExpenseTracker) (amount : ℚ)
    (category desc : String) (date? : Option PyDate)
    (h1 : 0 < amount) (h2 : pyStrip desc ≠ "") :
    (add_expense ts hashFn today t amount category desc date?).1 =
        .ok true ∧
      ∃ e : Expense,
        (add_expense ts hashFn today t amount category desc
              date?).2.expenses =
            t.expenses ++ [e] ∧
          e.amount = amount ∧ e.category = category ∧
          e.description = pyStrip desc ∧ e.date = date?.getD today ∧
          List.count e
              (add_expense ts hashFn today t amount category desc
                date?).2.expenses =
            List.count e t.expenses + 1 := by
  have hnot : ¬ amount ≤ 0 := not_le.mpr h1
  have key : add_expense ts hashFn today t amount category desc date? =
      (.ok true, save_expenses
        ⟨t.expenses ++
            [Expense.make amount category (pyStrip desc) (date?.getD today) none
              ts hashFn],
          addCategory t.categories category, t.file⟩) := by
    unfold add_expense
    rw [if_neg hnot, if_neg h2]
  rw [key]
  refine ⟨rfl,
    Expense.make amount category (pyStrip desc) (date?.getD today) none ts hashFn,
    rfl, rfl, rfl, rfl, rfl, ?_⟩
  show List.count _ (t.expenses ++ [_]) = _
  rw [List.count_append]
  simp

/-- Witness for C3 (amended) at a concrete valid call. -/
theorem C3_witness :
    (0 < (50 : ℚ)) ∧ (pyStrip " 早餐 " ≠ "") ∧
      (add_expense 0 (fun _ => 0) ⟨2024, 1, 1⟩ ⟨[], [], .absent⟩ 50 "食物"
          " 早餐 " none).1 = .ok true :=
  ⟨by norm_num, by decide,
    (C3_add_valid_appends 0 (fun _ => 0) ⟨2024, 1, 1⟩ ⟨[], [], .absent⟩ 50
      "食物" " 早餐 " none (by norm_num) (by decide)).1⟩

/-- C5: deserializing the serialization of any Record restores the Record
exactly — `amount`, `category`, `description`, `date` and `id` all agree
(stated for the in-range dates `datetime.date` can represent). -/
theorem C5_serialize_roundtrip (ts : Nat) (hashFn : String → Int)
    (e : Expense) (h : e.date.validB = true) :
    Expense.from_dict ts hashFn (Expense.to_dict e) = .ok e :=
  from_dict_to_dict ts hashFn e h

/-- Witness for C5 at a concrete record. -/
theorem C5_witness :
    ((⟨2024, 6, 15⟩ : PyDate).validB = true) ∧
      Expense.from_dict 0 (fun _ => 0)
          (Expense.to_dict ⟨100, "食物", "午餐", ⟨2024, 6, 15⟩, "abc"⟩) =
        .ok ⟨100, "食物", "午餐", ⟨2024, 6, 15⟩, "abc"⟩ :=
  ⟨by decide, C5_serialize_roundtrip 0 (fun _ => 0) _ (by decide)⟩

/-- Dropping the records whose id matches and counting the matches
partitions the collection. -/
lemma length_filter_add_countP (l : List Expense) (eid : String) :
    (l.filter (fun e => e.id != eid)).length +
      l.countP (fun e => e.id == eid) = l.length := by
  induction l with
  | nil => rfl
  | cons a l ih =>
    by_cases h : a.id = eid
    · have h1 : (a.id != eid) = false := by simp [bne, h]
      have h2 : (a.id == eid) = true := by simp [h]
      simp [List.filter_cons, List.countP_cons, h1, h2]
      omega
    · have h1 : (a.id != eid) = true := by simp [bne, h]
      have h2 : (a.id == eid) = false := by simp [h]
      simp [List.filter_cons, List.countP_cons, h1, h2]
      omega

/-- C4 counterexample: a Store state can hold two Records with the same id
(e.g. after loading a file containing a duplicated id); removing that id
drops *both* records, so the size decreases by 2, not by exactly 1. -/
theorem C4_counterexample :
    ((⟨[⟨1, "a", "d", ⟨2024, 1, 1⟩, "x"⟩, ⟨2, "b", "e", ⟨2024, 1, 2⟩, "x"⟩],
          [], .absent⟩ : ExpenseTracker).expenses.length = 2) ∧
      (remove_expense
          ⟨[⟨1, "a", "d", ⟨2024, 1, 1⟩, "x"⟩,
              ⟨2, "b", "e", ⟨2024, 1, 2⟩, "x"⟩], [], .absent⟩
          "x").2.expenses = [] := by
  exact ⟨rfl, by decide⟩

/-- C4 (amended): `remove_expense` keeps exactly the records whose id
differs (so it removes *every* match, not only the first); when no record
matches it returns the negative result `false` and the whole state —
collection, size, contents and backing file — is unchanged; when exactly
one record matches (ids unique, the expected case) it returns `true` and
the size decreases by exactly 1. -/
theorem C4_remove_amended (t : ExpenseTracker) (eid : String) :
    (remove_expense t eid).2.expenses =
        t.expenses.filter (fun e => e.id != eid) ∧
      ((∀ e ∈ t.expenses, e.id ≠ eid) → remove_expense t eid = (false, t)) ∧
      (t.expenses.countP (fun e => e.id == eid) = 1 →
        (remove_expense t eid).1 = true ∧
          (remove_expense t eid).2.expenses.length + 1 =
            t.expenses.length) := by
  refine ⟨?_, ?_, ?_⟩
  · simp only [remove_expense]
    split <;> rfl
  · intro hall
    have hkeep : t.expenses.filter (fun e => e.id != eid) = t.expenses :=
      List.filter_eq_self.mpr (fun a ha => by simp [bne, hall a ha])
    simp only [remove_expense, hkeep, lt_irrefl, if_false]
  · intro hcount
    have hlen := length_filter_add_countP t.expenses eid
    rw [hcount] at hlen
    have hlt : (t.expenses.filter (fun e => e.id != eid)).length <
        t.expenses.length := by omega
    constructor
    · simp only [remove_expense, if_pos hlt]
    · simp only [remove_expense, if_pos hlt, save_expenses]
      omega

/-- Witness for C4 (amended): removing the only matching id succeeds and
shrinks the collection by exactly one. -/
theorem C4_witness :
    (remove_expense ⟨[⟨5, "食物", "m", ⟨2024, 2, 2⟩, "a"⟩], [], .absent⟩
          "a").1 = true ∧
      (remove_expense ⟨[⟨5, "食物", "m", ⟨2024, 2, 2⟩, "a"⟩], [], .absent⟩
            "a").2.expenses.length + 1 =
        (⟨[⟨5, "食物", "m", ⟨2024, 2, 2⟩, "a"⟩], [],
            .absent⟩ : ExpenseTracker).expenses.length :=
  (C4_remove_amended ⟨[⟨5, "食物", "m", ⟨2024, 2, 2⟩, "a"⟩], [], .absent⟩
    "a").2.2 (by decide)

/-- Deserializing the serialization of a whole collection restores it
element by element. -/
lemma fromDictList_map_to_dict (ts : Nat) (hashFn : String → Int)
    (es : List Expense) (h : ∀ e ∈ es, e.date.validB = true) :
    fromDictList ts hashFn (es.map Expense.to_dict) = .ok es := by
  induction es with
  | nil => rfl
  | cons a l ih =>
    have ha : a.date.validB = true := h a (by simp)
    have hl : ∀ e ∈ l, e.date.validB = true := fun e he => h e (by simp [he])
    simp only [List.map_cons, fromDictList,
      from_dict_to_dict ts hashFn a ha, ih hl]

/-- C6: persisting the collection and then constructing a new Store on the
same backing file reproduces the identical ordered sequence of Records —
same length, same order, every field including `id` preserved (stated for
the in-range dates `datetime.date` can represent). -/
theorem C6_persist_reload (ts2 : Nat) (hashFn2 : String → Int)
    (t : ExpenseTracker) (h : ∀ e ∈ t.expenses, e.date.validB = true) :
    (mkExpenseTracker ts2 hashFn2 (save_expenses t).file).expenses =
      t.expenses := by
  simp only [mkExpenseTracker, save_expenses, load_expenses,
    fromDictList_map_to_dict ts2 hashFn2 t.expenses h]

/-- Witness for C6 at a concrete one-record store. -/
theorem C6_witness :
    (∀ e ∈ (⟨[⟨100, "食物", "午餐", ⟨2024, 6, 15⟩, "i1"⟩], [],
          .absent⟩ : ExpenseTracker).expenses, e.date.validB = true) ∧
      (mkExpenseTracker 7 (fun _ => 3)
            (save_expenses
              ⟨[⟨100, "食物", "午餐", ⟨2024, 6, 15⟩, "i1"⟩], [],
                .absent⟩).file).expenses =
        [⟨100, "食物", "午餐", ⟨2024, 6, 15⟩, "i1"⟩] :=
  ⟨by decide,
    C6_persist_reload 7 (fun _ => 3)
      ⟨[⟨100, "食物", "午餐", ⟨2024, 6, 15⟩, "i1"⟩], [], .absent⟩
      (by decide)⟩

/-- If any item of the array fails to deserialize, rebuilding the whole
collection raises (fail-fast), so the loader recovers to the empty list. -/
lemma fromDictList_error_of_mem (ts : Nat) (hashFn : String → Int)
    (items : List ExpenseDict)
    (h : ∃ d ∈ items, ∃ err, Expense.from_dict ts hashFn d = .error err) :
    ∃ err, fromDictList ts hashFn items = .error err := by
  induction items with
  | nil => simp at h
  | cons a l ih =>
    obtain ⟨d, hd, err, herr⟩ := h
    rcases List.mem_cons.mp hd with rfl | hmem
    · exact ⟨err, by simp [fromDictList, herr]⟩
    · cases hfa : Expense.from_dict ts hashFn a with
      | error e => exact ⟨e, by simp [fromDictList, hfa]⟩
      | ok e =>
        obtain ⟨err2, h2⟩ := ih ⟨d, hmem, err, herr⟩
        exact ⟨err2, by simp [fromDictList, hfa, h2]⟩

/-- C8: Store construction always succeeds and fails open to empty — a
malformed backing file and an absent backing file both yield an empty
collection, and a well-formed array containing any item that fails to
deserialize is never partially recovered: the collection is empty, not a
prefix. -/
theorem C8_load_fail_open (ts : Nat) (hashFn : String → Int) :
    (mkExpenseTracker ts hashFn .malformed).expenses = [] ∧
      (mkExpenseTracker ts hashFn .absent).expenses = [] ∧
      ∀ items : List ExpenseDict,
        (∃ d ∈ items, ∃ err, Expense.from_dict ts hashFn d = .error err) →
        (mkExpenseTracker ts hashFn (.records items)).expenses = [] := by
  refine ⟨rfl, rfl, ?_⟩
  intro items h
  obtain ⟨err, herr⟩ := fromDictList_error_of_mem ts hashFn items h
  simp [mkExpenseTracker, load_expenses, herr]

/-- Witness for C8: a file whose single item has an unparseable date
loads as the empty collection. -/
theorem C8_witness :
    (∃ d ∈ [(⟨some 1, some "食物", some "d", some "bad", none⟩ : ExpenseDict)],
        ∃ err, Expense.from_dict 0 (fun _ => 0) d = .error err) ∧
      (mkExpenseTracker 0 (fun _ => 0)
          (.records [⟨some 1, some "食物", some "d", some "bad", none⟩])).expenses =
        [] :=
  ⟨⟨⟨some 1, some "食物", some "d", some "bad", none⟩, by simp,
      .valueError, rfl⟩,
    (C8_load_fail_open 0 (fun _ => 0)).2.2
      [⟨some 1, some "食物", some "d", some "bad", none⟩]
      ⟨⟨some 1, some "食物", some "d", some "bad", none⟩, by simp,
        .valueError, rfl⟩⟩

/-- C9 counterexample: a map with a valid date string but a missing
`amount` key fails, but with `TypeError` (from the dataclass call), not
with `ValueError` — the error the spec calls ValidationError. -/
theorem C9_counterexample :
    Expense.from_dict 0 (fun _ => 0)
        ⟨none, some "食物", some "d", some "2024-06-15", some "i"⟩ =
      .error .typeError ∧ PyError.typeError ≠ PyError.valueError :=
  ⟨rfl, by decide⟩

/-- C9 (amended): `from_dict` fails with `ValueError` (ValidationError)
exactly when the date string does not parse as a valid ISO calendar date;
a missing `date` key fails with `KeyError` and a missing `amount`,
`category` or `description` fails with `TypeError`; and it never
re-validates the construction invariants, so any map with all fields
present and a valid date — including `amount <= 0` or an empty
description — deserializes successfully. -/
theorem C9_from_dict_behavior (ts : Nat) (hashFn : String → Int)
    (d : ExpenseDict) :
    (d.date = none → Expense.from_dict ts hashFn d = .error .keyError) ∧
      (∀ ds, d.date = some ds → parseIsoDate ds = none →
        Expense.from_dict ts hashFn d = .error .valueError) ∧
      (∀ ds dt, d.date = some ds → parseIsoDate ds = some dt →
        (d.amount = none ∨ d.category = none ∨ d.description = none) →
        Expense.from_dict ts hashFn d = .error .typeError) ∧
      (∀ ds dt a c desc, d.date = some ds → parseIsoDate ds = some dt →
        d.amount = some a → d.category = some c → d.description = some desc →
        Expense.from_dict ts hashFn d =
          .ok (Expense.make a c desc dt d.id ts hashFn)) := by
  obtain ⟨da, dc, dd, ddt, di⟩ := d
  refine ⟨?_, ?_, ?_, ?_⟩
  · intro h
    simp only at h
    subst h
    rfl
  · intro ds hds hparse
    simp only at hds
    subst hds
    simp [Expense.from_dict, hparse]
  · intro ds dt hds hparse hmiss
    simp only at hds
    subst hds
    simp only at hmiss
    cases da <;> cases dc <;> cases dd <;>
      simp_all [Expense.from_dict, hparse]
  · intro ds dt a c desc hds hparse ha hc hdd
    simp only at hds ha hc hdd
    subst hds; subst ha; subst hc; subst hdd
    simp [Expense.from_dict, hparse]

/-- Witness for C9 (amended): a map with `amount = -3` and an empty
description, but a valid date, deserializes successfully. -/
theorem C9_witness :
    Expense.from_dict 0 (fun _ => 0)
        ⟨some (-3), some "食物", some "", some "2024-06-15", some "i"⟩ =
      .ok (Expense.make (-3) "食物" ""
        ⟨2024, 6, 15⟩ (some "i") 0 (fun _ => 0)) :=
  (C9_from_dict_behavior 0 (fun _ => 0)
      ⟨some (-3), some "食物", some "", some "2024-06-15", some "i"⟩).2.2.2
    "2024-06-15" ⟨2024, 6, 15⟩ (-3) "食物" "" rfl rfl rfl rfl rfl

/-- C10: the date-range query returns a subsequence of the collection (so
insertion order is preserved), and a record is in the result exactly when
it is in the collection with `start <= date <= end`, both bounds
inclusive; with multiplicity, in-range records keep their full count and
strictly-outside records are excluded entirely. -/
theorem C10_date_range (t : ExpenseTracker) (sd ed : PyDate) :
    (get_expenses_by_date_range t sd ed).Sublist t.expenses ∧
      (∀ x : Expense, x ∈ get_expenses_by_date_range t sd ed ↔
        (x ∈ t.expenses ∧ PyDate.le sd x.date = true ∧
          PyDate.le x.date ed = true)) ∧
      (∀ x : Expense,
        (get_expenses_by_date_range t sd ed).count x =
          if PyDate.le sd x.date && PyDate.le x.date ed then
            t.expenses.count x
          else 0) := by
  refine ⟨List.filter_sublist _, ?_, ?_⟩
  · intro x
    simp [get_expenses_by_date_range, List.mem_filter, and_assoc]
  · intro x
    by_cases h : (PyDate.le sd x.date && PyDate.le x.date ed) = true
    · rw [if_pos h]
      exact List.count_filter h
    · rw [if_neg h]
      refine List.count_eq_zero.mpr ?_
      intro hx
      exact h ((List.mem_filter.mp hx).2)

/-- Witness for C10: a record dated exactly on the start bound is
returned (both bounds inclusive). -/
theorem C10_witness :
    (⟨10, "食物", "m", ⟨2024, 6, 1⟩, "a"⟩ : Expense) ∈
      get_expenses_by_date_range
        ⟨[⟨10, "食物", "m", ⟨2024, 6, 1⟩, "a"⟩], [], .absent⟩
        ⟨2024, 6, 1⟩ ⟨2024, 6, 30⟩ :=
  ((C10_date_range ⟨[⟨10, "食物", "m", ⟨2024, 6, 1⟩, "a"⟩], [], .absent⟩
        ⟨2024, 6, 1⟩ ⟨2024, 6, 30⟩).2.1
      ⟨10, "食物", "m", ⟨2024, 6, 1⟩, "a"⟩).mpr
    ⟨by decide, by decide, by decide⟩

/-- Effect of one loop step on a dictionary lookup: the matching key gains
`a` (starting from 0 when absent), every other key is untouched. -/
lemma lookupA_addToSummary (m : List (String × ℚ)) (c cat : String) (a : ℚ) :
    lookupA c (addToSummary m cat a) =
      if c = cat then some ((lookupA c m).getD 0 + a) else lookupA c m := by
  unfold addToSummary lookupA
  by_cases hmem : m.any (fun p => p.1 == cat) = true
  · rw [if_pos hmem]
    have hcomp : ((fun q : String × ℚ => q.1 == c) ∘
        (fun p : String × ℚ => if p.1 == cat then (p.1, p.2 + a) else p)) =
        (fun p : String × ℚ => p.1 == c) := by
      funext p
      simp only [Function.comp_apply]
      by_cases h : (p.1 == cat) = true
      · rw [if_pos h]
      · rw [if_neg h]
    rw [List.find?_map, hcomp]
    cases hf : m.find? (fun p => p.1 == c) with
    | none =>
      by_cases hc : c = cat
      · subst hc
        obtain ⟨p, hp, hpc⟩ := List.any_eq_true.mp hmem
        exact absurd hpc (List.find?_eq_none.mp hf p hp)
      · simp [hf, hc]
    | some p =>
      have hpc : (p.1 == c) = true := by
        have := List.find?_some hf
        simpa using this
      have hp1 : p.1 = c := by simpa using hpc
      by_cases hc : c = cat
      · subst hc
        simp [hf, hp1]
      · simp [hf, hp1, hc]
  · rw [if_neg hmem]
    have hnone : m.find? (fun p => p.1 == cat) = none := by
      rw [List.find?_eq_none]
      intro x hx hpx
      exact hmem (List.any_eq_true.mpr ⟨x, hx, hpx⟩)
    rw [List.find?_append]
    by_cases hc : c = cat
    · subst hc
      simp [hnone]
    · have hcc : ((cat : String) == c) = false := by
        simp only [beq_eq_false_iff_ne, ne_eq]
        exact fun h => hc h.symm
      simp [hcc, hc]

/-- Running the per-category loop over a list of records: the lookup of
any key equals the accumulator's entry (0 when absent) plus the sum of the
amounts of the records in that category, and keys touched by neither stay
absent. -/
lemma lookupA_foldl (l : List Expense) (c : String)
    (acc : List (String × ℚ)) :
    lookupA c (l.foldl (fun m e => addToSummary m e.category e.amount) acc) =
      if (l.any (fun e => e.category == c) || (lookupA c acc).isSome) then
        some ((lookupA c acc).getD 0 +
          ((l.filter (fun e => e.category == c)).map
            (fun e => e.amount)).sum)
      else none := by
  induction l generalizing acc with
  | nil => cases hacc : lookupA c acc <;> simp [hacc]
  | cons e l ih =>
    simp only [List.foldl_cons]
    rw [ih (addToSummary acc e.category e.amount), lookupA_addToSummary]
    by_cases hc : c = e.category
    · have hec : (e.category == c) = true := by simp [hc]
      rw [if_pos hc]
      simp only [List.any_cons, List.filter_cons, hec, Bool.true_or,
        Option.isSome_some, Bool.or_true, if_true, List.map_cons,
        List.sum_cons, Option.getD_some]
      cases hacc : lookupA c acc <;> simp [hacc, add_assoc]
    · have hec : (e.category == c) = false := by
        simp only [beq_eq_false_iff_ne, ne_eq]
        exact fun h => hc h.symm
      rw [if_neg hc]
      simp [hec]

/-- Rounding zero gives zero. -/
lemma round2_zero : round2 0 = 0 := by
  unfold round2 roundHalfEven
  have h0 : ((0 : ℚ) * 100) = 0 := by norm_num
  rw [h0, Int.floor_zero]
  norm_num

/-- C7: the monthly summary considers exactly the records whose date has
the given year and month; it reports their count, their total rounded to
two decimals, the average (unrounded total over count) rounded to two
decimals, and unrounded per-category subtotals over that subset; a month
with no matching records yields total `0.0`, count `0`, average `0.0` and
an empty category mapping. -/
theorem C7_monthly_summary (t : ExpenseTracker) (year month : Nat) :
    (calculate_monthly_summary t year month).expense_count =
        (t.expenses.filter
          (fun e => e.date.year == year && e.date.month == month)).length ∧
      (calculate_monthly_summary t year month).total_amount =
        round2 (((t.expenses.filter
          (fun e => e.date.year == year && e.date.month == month)).map
            (fun e => e.amount)).sum) ∧
      (t.expenses.filter
            (fun e => e.date.year == year && e.date.month == month) = [] →
        calculate_monthly_summary t year month = ⟨0, 0, 0, []⟩) ∧
      (t.expenses.filter
            (fun e => e.date.year == year && e.date.month == month) ≠ [] →
        (calculate_monthly_summary t year month).average_amount =
          round2 ((((t.expenses.filter
              (fun e => e.date.year == year && e.date.month == month)).map
                (fun e => e.amount)).sum) /
            (((t.expenses.filter
              (fun e => e.date.year == year &&
                e.date.month == month)).length : ℚ)))) ∧
      (∀ c : String,
        lookupA c (calculate_monthly_summary t year month).categories =
          if (t.expenses.filter
              (fun e => e.date.year == year && e.date.month == month)).any
                (fun e => e.category == c) then
            some ((((t.expenses.filter
                (fun e => e.date.year == year &&
                  e.date.month == month)).filter
                  (fun e => e.category == c)).map (fun e => e.amount)).sum)
          else none) := by
  by_cases hemp : t.expenses.filter
      (fun e => e.date.year == year && e.date.month == month) = []
  · have key : calculate_monthly_summary t year month = ⟨0, 0, 0, []⟩ := by
      unfold calculate_monthly_summary
      simp [hemp]
    refine ⟨?_, ?_, fun _ => key, fun hne => absurd hemp hne, ?_⟩
    · rw [key, hemp]
      rfl
    · rw [key, hemp]
      simpa using round2_zero.symm
    · intro c
      rw [key, hemp]
      simp [lookupA]
  · have hne : (t.expenses.filter
        (fun e => e.date.year == year && e.date.month == month)).isEmpty =
          false := by
      rw [List.isEmpty_eq_false]
      exact hemp
    have key : calculate_monthly_summary t year month =
        ⟨round2 (((t.expenses.filter
            (fun e => e.date.year == year && e.date.month == month)).map
              (fun e => e.amount)).sum),
          (t.expenses.filter
            (fun e => e.date.year == year && e.date.month == month)).length,
          round2 ((((t.expenses.filter
              (fun e => e.date.year == year && e.date.month == month)).map
                (fun e => e.amount)).sum) /
            (((t.expenses.filter
              (fun e => e.date.year == year &&
                e.date.month == month)).length : ℚ))),
          (t.expenses.filter
            (fun e => e.date.year == year && e.date.month == month)).foldl
              (fun m e => addToSummary m e.category e.amount) []⟩ := by
      unfold calculate_monthly_summary
      simp only [hne, Bool.false_eq_true, if_false]
    refine ⟨?_, ?_, fun he => absurd he hemp, fun _ => ?_, ?_⟩
    · rw [key]
    · rw [key]
    · rw [key]
    · intro c
      rw [key]
      show lookupA c ((t.expenses.filter _).foldl _ []) = _
      rw [lookupA_foldl]
      simp [lookupA]

/-- The sample store of §8 of the documentation: three June-2024 records
and one May-2024 record. -/
def juneSample : ExpenseTracker :=
  ⟨[⟨100, "食物", "餐廳", ⟨2024, 6, 15⟩, "a"⟩,
    ⟨200, "購物", "衣服", ⟨2024, 6, 15⟩, "b"⟩,
    ⟨80, "食物", "超市", ⟨2024, 6, 15⟩, "c"⟩,
    ⟨50, "食物", "其他月", ⟨2024, 5, 15⟩, "d"⟩], [], .absent⟩

/-- Witness for C7 on the sample store: June 2024 has matching records and
the reported average is the rounded quotient of their unrounded total by
their count. -/
theorem C7_witness :
    (juneSample.expenses.filter
        (fun e => e.date.year == 2024 && e.date.month == 6) ≠ []) ∧
      (calculate_monthly_summary juneSample 2024 6).average_amount =
        round2 ((((juneSample.expenses.filter
            (fun e => e.date.year == 2024 && e.date.month == 6)).map
              (fun e => e.amount)).sum) /
          (((juneSample.expenses.filter
            (fun e => e.date.year == 2024 &&
              e.date.month == 6)).length : ℚ))) :=
  ⟨by decide, (C7_monthly_summary juneSample 2024 6).2.2.2.1 (by decide)⟩
